import Mathlib

set_option autoImplicit false
set_option linter.unusedVariables false
set_option maxRecDepth 8000
set_option synthInstance.maxSize 2000
set_option allowUnsafeReducibility true
attribute [semireducible] Rat.add Rat.mul Rat.sub Rat.div Rat.inv Rat.neg Rat.ofScientific

/-!
Shallow embedding of the third-order (S-curve) motion simulator.

The Python source computes with IEEE-754 doubles; this development models the
same control flow over exact rationals (`ℚ`).  Square roots are modelled by
`ratSqrt`, which returns the exact rational square root when one exists and
`none` otherwise; solver paths that would need an irrational intermediate value
are flagged with the error `MErr.notRational` ("the rational model cannot carry
this value") instead of being silently approximated.  Every claim below is
settled at inputs on which all intermediate values that steer control flow are
rational, so on those inputs the model's control flow coincides with the
source's.  A `none` in a value position plays the role of IEEE NaN: arithmetic
propagates it and every comparison against it is false (Python's `nan`
semantics), except `!=`, which is true.  Rational division by zero is Lean's
junk value `0` where Python would raise `ZeroDivisionError`; no theorem below
depends on such a point.
-/

/-- Error channel of the model: `notRational` marks a point where the Python
floats carry a value that has no exact rational representation (the model
stops there), and `unbound n` marks a Python `NameError`: the local variable
`n` is read before any assignment on the path taken. -/
inductive MErr where
  | notRational
  | unbound (localName : String)
deriving DecidableEq

/-- Heron/Newton iteration for the integer square root, bounded by fuel; the
iteration stops as soon as the guess stops decreasing, long before any
reasonable fuel runs out. -/
def iSqrtGo (n : ℕ) : ℕ → ℕ → ℕ
  | 0, g => g
  | fuel + 1, g =>
    let g' := (g + n / g) / 2
    if g' < g then iSqrtGo n fuel g' else g

/-- Integer square root (the floor of the real square root on perfect squares,
which are the only inputs whose value matters below). -/
def iSqrt (n : ℕ) : ℕ := if n ≤ 1 then n else iSqrtGo n n (n / 2 + 1)

/-- Exact rational square root: `some r` with `r * r = q` when `q` is the
square of a rational, otherwise `none`.  Models `math.sqrt` restricted to the
inputs on which the result is exactly representable. -/
def ratSqrt (q : ℚ) : Option ℚ :=
  if 0 ≤ q then
    let n := q.num.natAbs
    let d := q.den
    if iSqrt n * iSqrt n = n ∧ iSqrt d * iSqrt d = d then
      some ((iSqrt n : ℚ) / (iSqrt d : ℚ))
    else none
  else none

/-- curve_math.s_to_steps (curve_math.py lines 5-15): quantize a displacement
`s` at resolution `alpha` with ceiling tolerance `epsilon`. -/
def s_to_steps (s alpha epsilon : ℚ) : ℤ :=
  let r_stp := s * alpha
  let stp := ⌈r_stp⌉
  if (stp : ℚ) - r_stp < epsilon then stp else stp - 1

/-- curve_math.solve_second_order_pos (lines 67-84), value level: the positive
branch root of `a x² + b x + c`, `none` for "no solution" (negative
discriminant or negative root, which the source encodes as NaN) and also
`none` when the root is irrational (model restriction). -/
def solve_second_order_posV (a b c : ℚ) : Option ℚ :=
  let discriminant := b ^ 2 - 4 * a * c
  if 0 < discriminant then
    match ratSqrt discriminant with
    | some r =>
      let unknown := (-b + r) / (2 * a)
      if unknown < 0 then none else some unknown
    | none => none
  else if discriminant = 0 then
    let unknown := -(b / (2 * a))
    if unknown < 0 then none else some unknown
  else none

/-- curve_math.solve_second_order_pos, control level: distinguishes "NaN"
(`.ok none`) from "irrational, outside the rational model" (`.error`). -/
def solve_second_order_pos (a b c : ℚ) : Except MErr (Option ℚ) :=
  let discriminant := b ^ 2 - 4 * a * c
  if 0 < discriminant then
    match ratSqrt discriminant with
    | some r =>
      let unknown := (-b + r) / (2 * a)
      .ok (if unknown < 0 then none else some unknown)
    | none => .error .notRational
  else if discriminant = 0 then
    let unknown := -(b / (2 * a))
    .ok (if unknown < 0 then none else some unknown)
  else .ok none

/-- curve_math.solve_second_order_neg (lines 86-103), control level. -/
def solve_second_order_neg (a b c : ℚ) : Except MErr (Option ℚ) :=
  let discriminant := b ^ 2 - 4 * a * c
  if 0 < discriminant then
    match ratSqrt discriminant with
    | some r =>
      let unknown := (-b - r) / (2 * a)
      .ok (if unknown < 0 then none else some unknown)
    | none => .error .notRational
  else if discriminant = 0 then
    let unknown := -(b / (2 * a))
    .ok (if unknown < 0 then none else some unknown)
  else .ok none

/-- NaN-propagating addition on `Option ℚ`. -/
def oAdd : Option ℚ → Option ℚ → Option ℚ
  | some x, some y => some (x + y)
  | _, _ => none

/-- NaN-propagating subtraction on `Option ℚ`. -/
def oSub : Option ℚ → Option ℚ → Option ℚ
  | some x, some y => some (x - y)
  | _, _ => none

/-- NaN-propagating multiplication on `Option ℚ`. -/
def oMul : Option ℚ → Option ℚ → Option ℚ
  | some x, some y => some (x * y)
  | _, _ => none

/-- NaN-propagating division on `Option ℚ`; division by zero is `none`
(Python raises `ZeroDivisionError` there; no theorem depends on that point). -/
def oDiv : Option ℚ → Option ℚ → Option ℚ
  | some x, some y => if y = 0 then none else some (x / y)
  | _, _ => none

/-- NaN-propagating absolute value. -/
def oAbs : Option ℚ → Option ℚ
  | some x => some |x|
  | none => none

/-- Strict `>` with IEEE NaN semantics: any comparison against NaN is false. -/
def oGTb : Option ℚ → Option ℚ → Bool
  | some x, some y => decide (y < x)
  | _, _ => false

/-- Inequality `!=` with IEEE NaN semantics: NaN is unequal to everything,
including itself. -/
def oNeB : Option ℚ → Option ℚ → Bool
  | some x, some y => decide (x ≠ y)
  | _, _ => true

/-- The largest finite double, `sys.float_info.max`, as an exact rational. -/
def FMAX : ℚ := (2 ^ 53 - 1) * 2 ^ 971

/-- Iteration state of curve_math.solve_third_order_newton: the previous and
current iterate and the current and previous step errors.  `none` is NaN. -/
structure NewtonState where
  x0 : Option ℚ
  x1 : Option ℚ
  error : Option ℚ
  prevError : Option ℚ
deriving DecidableEq

/-- Cubic `a x³ + b x² + c x + d`, NaN-propagating. -/
def oPoly3 (a b c d : ℚ) (x : Option ℚ) : Option ℚ :=
  x.map fun y => a * y ^ 3 + b * y ^ 2 + c * y + d

/-- Derivative `3 a x² + 2 b x + c`, NaN-propagating. -/
def oPoly3D (a b c : ℚ) (x : Option ℚ) : Option ℚ :=
  x.map fun y => 3 * a * y ^ 2 + 2 * b * y + c

/-- curve_math.py lines 18-26: state before the first loop test. -/
def newtonInit (a b c d x0 : ℚ) : NewtonState :=
  let f := oPoly3 a b c d (some x0)
  let df := oPoly3D a b c (some x0)
  let x1 := oSub (some x0) (oDiv f df)
  { x0 := some x0, x1 := x1, error := oAbs (oSub x1 (some x0)), prevError := some FMAX }

/-- curve_math.py lines 28-38: one iteration of the damped-Newton loop body,
including the overwrite of the iterate with NaN when the step error strictly
grew. -/
def newtonStepF (a b c d : ℚ) (st : NewtonState) : NewtonState :=
  let x0 := st.x1
  let f := oPoly3 a b c d x0
  let df := oPoly3D a b c x0
  let x1 := oSub x0 (oDiv f df)
  let prevError := st.error
  let error := oAbs (oSub x1 x0)
  { x0 := x0
    x1 := if oGTb error prevError then none else x1
    error := error
    prevError := prevError }

/-- curve_math.py line 27: the `while` guard
`(error > err) and (error != prev_error)`. -/
def newtonCont (err : ℚ) (st : NewtonState) : Bool :=
  oGTb st.error (some err) && oNeB st.error st.prevError

/-- Fuel-bounded runner for the same loop, used where the surrounding code
consumes the returned iterate.  The Python loop itself carries no such bound;
on the inputs where the returned value matters the loop converges long before
the fuel runs out, and no theorem below depends on the fuel value. -/
def newtonGo (a b c d err : ℚ) : ℕ → NewtonState → Option ℚ
  | 0, _ => none
  | fuel + 1, st =>
    if newtonCont err st then newtonGo a b c d err fuel (newtonStepF a b c d st)
    else st.x1

/-- curve_math.solve_third_order_newton (lines 17-43). -/
def solve_third_order_newton (a b c d x0 err : ℚ) : Option ℚ :=
  newtonGo a b c d err 64 (newtonInit a b c d x0)

/-- Warm-started variant whose initial guess may already be NaN. -/
def solve_third_order_newtonO (a b c d : ℚ) (x0 : Option ℚ) (err : ℚ) : Option ℚ :=
  x0.bind fun x => solve_third_order_newton a b c d x err

/-- motion_constraint.MotionConstraint.  `aPrev`/`vPrev` model the `a_prev` /
`v_prev` attributes, which do not exist until the first `update_*` call. -/
structure MotionConstraint where
  v0 : ℚ
  v : ℚ
  a : ℚ
  j : ℚ
  s : ℚ
  t : ℚ
  aPrev : Option ℚ := none
  vPrev : Option ℚ := none
deriving DecidableEq

/-- motion_constraint.py lines 10-12. -/
def MotionConstraint.update_a (c : MotionConstraint) (a : ℚ) : MotionConstraint :=
  { c with aPrev := some c.a, a := a }

/-- motion_constraint.py lines 14-15.  When no `update_a` ever ran, Python
raises `AttributeError`; the model leaves `a` unchanged in that case (the
solver only ever restores after an update, so the fallback is never taken on
solver paths). -/
def MotionConstraint.restore_a (c : MotionConstraint) : MotionConstraint :=
  { c with a := c.aPrev.getD c.a }

/-- motion_constraint.py lines 17-19. -/
def MotionConstraint.update_v (c : MotionConstraint) (v : ℚ) : MotionConstraint :=
  { c with vPrev := some c.v, v := v }

/-- motion_constraint.py lines 21-22; same fallback remark as `restore_a`. -/
def MotionConstraint.restore_v (c : MotionConstraint) : MotionConstraint :=
  { c with v := c.vPrev.getD c.v }

/-- The observable request fields (everything except the undo scratch). -/
def MotionConstraint.pub (c : MotionConstraint) : ℚ × ℚ × ℚ × ℚ × ℚ × ℚ :=
  (c.v0, c.v, c.a, c.j, c.s, c.t)

/-- Curve.__init__: self.epsilon = 1E-9. -/
def Curve.epsilon : ℚ := 1 / 1000000000

/-- Curve.__init__: self.solve_error = 0.01. -/
def Curve.solve_error : ℚ := 1 / 100

/-- Curve.__init__: self.min_segment_steps = 2. -/
def Curve.min_segment_steps : ℚ := 2

/-- SCurveFull.__get_min_displacement__ (s_curve_full.py lines 18-36). -/
def SCurveFull.get_min_displacement (c : MotionConstraint) : List ℚ :=
  [(6 * c.a * c.j * c.v0 + c.a ^ 3) / (6 * c.j ^ 2),
   (c.v ^ 2 * c.j - c.a ^ 2 * c.v - c.v0 ^ 2 * c.j - c.a ^ 2 * c.v0) / (2 * c.a * c.j),
   (6 * c.v * c.a * c.j - c.a ^ 3) / (6 * c.j ^ 2)]

/-- Curve.__check_min_displacement__ (curve.py lines 87-95) specialised to the
full S-curve's minimum-displacement oracle. -/
def SCurveFull.check_min_displacement (c : MotionConstraint) (beta : ℚ) : Bool :=
  ((SCurveFull.get_min_displacement c).all fun x => !decide (x < beta)) &&
    decide ((SCurveFull.get_min_displacement c).sum ≤ c.s / 2)

/-- Helper for `bisectIters`: the least `n ≥ start` with `q ≤ 2 ^ n`, found by
linear search under a fuel that is always sufficient. -/
def ceilLog2Go (q : ℚ) : ℕ → ℕ → ℕ
  | 0, n => n
  | fuel + 1, n => if q ≤ 2 ^ n then n else ceilLog2Go q fuel (n + 1)

/-- Models `math.ceil(math.log2 q)` for `q > 0`, clamped below by 0 (a
non-positive iteration count makes `range(its)` empty).  Exact whenever the
float `log2` rounds consistently with the real one, which holds at every input
used below. -/
def bisectIters (q : ℚ) : ℕ :=
  if q ≤ 1 then 0 else ceilLog2Go q (q.num.natAbs + 1) 1

/-- State of the acceleration bisection in both solver modes: the mutable
constraints plus the loop locals `min_a`, `max_a`, `min_v` (the last unbound
until the first accepted trial). -/
structure MState where
  c : MotionConstraint
  minA : ℚ
  maxA : ℚ
  minV : Option ℚ
deriving DecidableEq

/-- One trial of the motion-only bisection, s_curve_full.py lines 529-554. -/
def motionTrial (beta : ℚ) (st : MState) : Except MErr MState :=
  let c1 := st.c.update_a (0.5 * (st.minA + st.maxA))
  match solve_second_order_pos 1 (c1.a ^ 2 / c1.j)
      (c1.a ^ 2 * c1.v0 / c1.j - c1.v0 ^ 2 - c1.s * c1.a) with
  | .error e => .error e
  | .ok (some v) =>
    if c1.v0 < v ∧ v < c1.v then
      let c2 := c1.update_v v
      if SCurveFull.check_min_displacement c2 beta then
        .ok { c := c2.restore_v.restore_a, minA := c2.a, maxA := st.maxA, minV := some v }
      else
        .ok { c := c2.restore_v.restore_a, minA := st.minA, maxA := c2.a, minV := st.minV }
    else
      .ok { c := c1.restore_a, minA := st.minA, maxA := c1.a, minV := st.minV }
  | .ok none =>
    .ok { c := c1.restore_a, minA := st.minA, maxA := c1.a, minV := st.minV }

/-- The `for _ in range(its)` loop around `motionTrial`. -/
def motionLoop (beta : ℚ) : ℕ → MState → Except MErr MState
  | 0, st => .ok st
  | n + 1, st => (motionTrial beta st).bind (motionLoop beta n)

/-- SCurveFull.__solve_motion_constraints__ (s_curve_full.py lines 488-564).
The float comparison `math.sqrt(j*(v-v0)) < a` is modelled as
`j*(v-v0) < a²`, equivalent for `a ≥ 0` (every request has `a > 0`). -/
def solveMotionFull (c : MotionConstraint) (alpha : ℚ) : Except MErr (Bool × MotionConstraint) := do
  let beta := 1 / alpha
  let c1 ←
    if c.j * (c.v - c.v0) < c.a ^ 2 then
      match solve_second_order_pos (c.v + c.v0) (2 * Curve.min_segment_steps * beta * c.j)
          (-(c.j * (c.v ^ 2 - c.v0 ^ 2))) with
      | .error e => .error e
      | .ok (some a_) => .ok (c.update_a a_)
      | .ok none => .error MErr.notRational
    else .ok c
  if SCurveFull.check_min_displacement c1 beta then
    .ok (true, c1)
  else
    let its := bisectIters ((c1.a - 0) / Curve.solve_error)
    let st ← motionLoop beta its { c := c1, minA := 0, maxA := c1.a, minV := none }
    if 0 < st.minA then
      match st.minV with
      | some mv => .ok (true, (st.c.update_a st.minA).update_v mv)
      | none => .error (.unbound "min_v")
    else .ok (false, st.c)

/-- SCurveFull.__solve_time_and_motion_constraints_step__ (lines 418-440). -/
def solve_time_step (c : MotionConstraint) (beta : ℚ) : Except MErr (Bool × MotionConstraint) :=
  let min_v := c.v0 + c.a ^ 2 / c.j
  match solve_second_order_neg c.j
      (-(c.a * c.j * c.t) - 2 * c.j * c.v0 + c.a ^ 2)
      (c.j * c.v0 ^ 2 - c.a ^ 2 * c.v0 + c.a * c.j * c.s) with
  | .error e => .error e
  | .ok (some v_) =>
    if min_v < v_ ∧ v_ ≤ c.v then
      let c1 := c.update_v v_
      let solved := SCurveFull.check_min_displacement c1 beta
      let c2 := c1.restore_v
      if solved then .ok (true, c2.update_v v_) else .ok (false, c2)
    else .ok (false, c)
  | .ok none => .ok (false, c)

/-- One trial of the time-and-motion bisection, lines 464-478.  On a solved
trial the step has already committed `update_v`, so `min_v` records the
updated `c.v`. -/
def timeTrial (beta : ℚ) (st : MState) : Except MErr MState :=
  let c1 := st.c.update_a (0.5 * (st.minA + st.maxA))
  match solve_time_step c1 beta with
  | .error e => .error e
  | .ok (solved, c2) =>
    if solved then
      .ok { c := c2.restore_a, minA := c2.a, maxA := st.maxA, minV := some c2.v }
    else
      .ok { c := c2.restore_a, minA := st.minA, maxA := c2.a, minV := st.minV }

/-- The `for _ in range(its)` loop around `timeTrial`. -/
def timeLoop (beta : ℚ) : ℕ → MState → Except MErr MState
  | 0, st => .ok st
  | n + 1, st => (timeTrial beta st).bind (timeLoop beta n)

/-- SCurveFull.__solve_time_and_motion_constraints__ (lines 442-486). -/
def solveTimeMotionFull (c : MotionConstraint) (alpha : ℚ) : Except MErr (Bool × MotionConstraint) := do
  let beta := 1 / alpha
  if c.s ≤ c.v0 * c.t then
    .ok (false, c)
  else
    let (solved, c1) ← solve_time_step c beta
    if solved then
      .ok (true, c1)
    else
      let its := bisectIters ((c1.a - 0) / Curve.solve_error)
      let st ← timeLoop beta its { c := c1, minA := 0, maxA := c1.a, minV := none }
      if 0 < st.minA then
        match st.minV with
        | some mv => .ok (true, (st.c.update_a st.minA).update_v mv)
        | none => .error (.unbound "min_v")
      else .ok (false, st.c)

/-- curve.ContinuousCurveSegment (curve.py lines 11-55), the continuous form
of one profile segment; constructor argument order follows the source. -/
structure ContinuousCurveSegment where
  id : ℕ
  t : ℚ
  vi : ℚ
  ve : ℚ
  ai : ℚ
  ae : ℚ
  j : ℚ
  si : ℚ
  se : ℚ
deriving DecidableEq

/-- curve.py line 39: the derived attribute `s = se - si`. -/
def ContinuousCurveSegment.s (g : ContinuousCurveSegment) : ℚ := g.se - g.si

/-- curve.DiscreteCurveSegment (curve.py lines 57-69).  The fields `td` and
`t0` hold times derived from Newton iterations or irrational quadratic roots,
so they live in `Option ℚ`; `none` is a value the rational model cannot carry
(it never steers any control flow that a claim below depends on). -/
structure DiscreteCurveSegment where
  id : ℕ
  t : ℚ
  vi : ℚ
  ve : ℚ
  ai : ℚ
  ae : ℚ
  j : ℚ
  si : ℚ
  se : ℚ
  stpi : ℤ
  stpe : ℤ
  td : Option ℚ
  t0 : Option ℚ
  s0 : ℚ
deriving DecidableEq

/-- The analytic velocity `v(t) = vi + ai·t + ½ j t²` of a discrete segment,
NaN-propagating (curve.py line 44). -/
def DiscreteCurveSegment.fvO (g : DiscreteCurveSegment) (t : Option ℚ) : Option ℚ :=
  t.map fun x => g.vi + g.ai * x + (1 / 2) * g.j * x ^ 2

/-- Reading a Python local of integer value: `none` means the local was never
assigned on this path, so the read raises `NameError`. -/
def readLocalZ (n : String) : Option ℤ → Except MErr ℤ
  | some x => .ok x
  | none => .error (.unbound n)

/-- Reading a Python local of rational value; `none` raises `NameError`. -/
def readLocalQ (n : String) : Option ℚ → Except MErr ℚ
  | some x => .ok x
  | none => .error (.unbound n)

/-- SCurveFull.__bounds__ (s_curve_full.py lines 38-416), transliterated let
by let over the solved constraints `(cv0, cv, ca, cj, cs)` and the resolution
`alpha`.  Sequential `let` shadowing mirrors Python reassignment.  Conditional
blocks that assign several locals become tuple-valued `if` expressions
returning exactly the locals the Python block assigns.  Locals that the source
assigns only conditionally (`stp_err`, `s3_d`, `s4_stp`) are `Option`-typed
and every read goes through `readLocal*`, which models the `NameError` raised
when the assignment was skipped.  Note line 81 of the source: the statement
that should initialize `s3_d` writes `s2_d` a second time instead, so `s3_d`
starts unassigned. -/
def boundsCore (cv0 cv ca cj cs alpha : ℚ) :
    Except MErr (List ContinuousCurveSegment × List DiscreteCurveSegment) := do
  let beta := 1 / alpha
  let eps := Curve.epsilon
  -- lines 73-81 (via __get_min_displacement__)
  let s1 := (6 * ca * cj * cv0 + ca ^ 3) / (6 * cj ^ 2)
  let s2 := (cv ^ 2 * cj - ca ^ 2 * cv - cv0 ^ 2 * cj - ca ^ 2 * cv0) / (2 * ca * cj)
  let s3 := (6 * cv * ca * cj - ca ^ 3) / (6 * cj ^ 2)
  let s1_stp := s_to_steps s1 alpha eps
  let s2_stp := s_to_steps s2 alpha eps
  let s3_stp := s_to_steps s3 alpha eps
  let s1_d := (s1_stp : ℚ) * beta
  let s2_d := (s2_stp : ℚ) * beta
  let s2_d := (s2_stp : ℚ) * beta
  let s3_dOpt : Option ℚ := none
  -- Segment 1, continuous form (lines 87-99)
  let t := ca / cj
  let ai : ℚ := 0
  let ae := ca
  let j := cj
  let vi := cv0
  let ve := cv0 + ca ^ 2 / (2 * cj)
  let s := s1
  let si : ℚ := 0
  let se := s
  let segment1 : ContinuousCurveSegment := ⟨1, t, vi, ve, ai, ae, j, si, se⟩
  -- Segment 1, discrete form (lines 102-119)
  let t_err : Option ℚ := some 0
  let s_err : ℚ := 0
  let t1_err : Option ℚ := some 0
  let s1_err : ℚ := 0
  let stp_errOpt : Option ℤ := none
  let (t1_err, s1_err, t_err, s_err, stp_errOpt) :=
    if eps < s1 - s1_d then
      let t1e := oSub (some t)
        (solve_third_order_newton j (3 * ai) (6 * vi) (-(6 * s1_d)) t (1 / 1000000))
      let s1e := s1 - s1_d
      (t1e, s1e, t1e, s1e, some (⌈s1e * alpha⌉ : ℤ))
    else (t1_err, s1_err, t_err, s_err, stp_errOpt)
  let stpi : ℤ := 1
  let stpe : ℤ := s1_stp
  let segment1d : DiscreteCurveSegment :=
    ⟨1, t, vi, ve, ai, ae, j, si, se, stpi, stpe, some 0, some 0, 0⟩
  -- Segment 2, continuous form (lines 126-137)
  let t := (cv - cv0 - ca ^ 2 / cj) / ca
  let ai := ae
  let ae := ai
  let j : ℚ := 0
  let vi := ve
  let ve := cv - ca ^ 2 / (2 * cj)
  let s := s2
  let si := se
  let se := si + s
  let segment2 : ContinuousCurveSegment := ⟨2, t, vi, ve, ai, ae, j, si, se⟩
  -- Segment 2, discrete form (lines 141-184); line 147 reads stp_err
  -- unconditionally although segment 1 assigned it only when it had a
  -- positive rounding residual.
  let t2_err : Option ℚ := some 0
  let s2_err : ℚ := 0
  let s2_0 : ℚ := 0
  let t2_0 : Option ℚ := some 0
  let t2_d : Option ℚ := some 0
  let stp_err ← readLocalZ "stp_err" stp_errOpt
  let (t2_0, s2_0, s2_stp, s2_d, t2_d, s_err, t_err, stp_err) :=
    if 0 < stp_err then
      let s_fix_err := (stp_err : ℚ) * beta - s1_err
      if s_fix_err ≤ s2 then
        let t2_0 := solve_second_order_posV (0.5 * ai) vi (-s_fix_err)
        let s2_0 := s_fix_err
        let s2_stp := s_to_steps (s2 - s_fix_err) alpha eps
        let s2_d := s_fix_err + (s2_stp : ℚ) * beta
        let s2_stp := s2_stp + stp_err
        let t2_d := oAdd t_err t2_0
        (t2_0, s2_0, s2_stp, s2_d, t2_d, (0 : ℚ), (some 0 : Option ℚ), (0 : ℤ))
      else
        (t2_0, s2_0, s2_stp, s2_d, t2_d, s_err + s2, oAdd t_err (some t), stp_err)
    else (t2_0, s2_0, s2_stp, s2_d, t2_d, s_err, t_err, stp_err)
  let (t2_err, s2_err, t_err, s_err, stp_err) :=
    if eps < s2 - s2_d then
      let t2e := oSub (some t) (solve_second_order_posV (0.5 * ai) vi (-s2_d))
      let s2e := s2 - s2_d
      (t2e, s2e, oAdd t_err t2e, s_err + s2e, (⌈(s_err + s2e) * alpha⌉ : ℤ))
    else (t2_err, s2_err, t_err, s_err, stp_err)
  let stpi := stpe + 1
  let stpe := stpe + s2_stp
  let segment2d : DiscreteCurveSegment :=
    ⟨2, t, vi, ve, ai, ae, j, si, se, stpi, stpe, t2_d, t2_0, s2_0⟩
  -- Segment 3, continuous form (lines 189-201)
  let t := ca / cj
  let ai := ae
  let ae : ℚ := 0
  let j := -cj
  let vi := segment2.ve
  let ve := cv
  let s := s3
  let si := se
  let se := si + s
  let segment3 : ContinuousCurveSegment := ⟨3, t, vi, ve, ai, ae, j, si, se⟩
  -- Segment 3, discrete form (lines 205-247); line 236 reads s3_d, which was
  -- assigned only inside the absorption branch above it.
  let t3_err : Option ℚ := some 0
  let s3_err : ℚ := 0
  let s3_0 : ℚ := 0
  let t3_0 : Option ℚ := some 0
  let t3_d : Option ℚ := some 0
  let (t3_0, s3_0, s3_stp, s3_dOpt, t3_d, s_err, t_err, stp_err) :=
    if 0 < stp_err then
      let s_fix_err := (stp_err : ℚ) * beta - s_err
      if s_fix_err ≤ s3 then
        let t3_0 := solve_third_order_newton j (3 * ai) (6 * vi) (-(6 * s_fix_err)) t (1 / 1000000)
        let s3_0 := s_fix_err
        let s3_stp := s_to_steps (s3 - s_fix_err) alpha eps
        let s3_d := s_fix_err + (s3_stp : ℚ) * beta
        let s3_stp := s3_stp + stp_err
        let t3_d := oAdd t_err t3_0
        (t3_0, s3_0, s3_stp, some s3_d, t3_d, (0 : ℚ), (some 0 : Option ℚ), (0 : ℤ))
      else
        (t3_0, s3_0, s3_stp, s3_dOpt, t3_d, s_err + s3, oAdd t_err (some t), stp_err)
    else (t3_0, s3_0, s3_stp, s3_dOpt, t3_d, s_err, t_err, stp_err)
  let s3_d ← readLocalQ "s3_d" s3_dOpt
  let (t3_err, s3_err, t_err, s_err, stp_err) :=
    if eps < s3 - s3_d then
      let t3e := oSub (some t)
        (solve_third_order_newton j (3 * ai) (6 * vi) (-(6 * s3_d)) t (1 / 1000000))
      let s3e := s3 - s3_d
      (t3e, s3e, oAdd t_err t3e, s_err + s3e, (⌈(s_err + s3e) * alpha⌉ : ℤ))
    else (t3_err, s3_err, t_err, s_err, stp_err)
  let stpi := stpe + 1
  let stpe := stpe + s3_stp
  let segment3d : DiscreteCurveSegment :=
    ⟨3, t, vi, ve, ai, ae, j, si, se, stpi, stpe, t3_d, t3_0, s3_0⟩
  -- Segment 4 (lines 254-318); the whole block runs only when s4 > epsilon.
  -- Line 257 assigns to s4_d the raw floor (a step count, not a displacement);
  -- line 315 reads s4_stp, which was assigned only inside the absorption
  -- branch.
  let s4 := cs - 2 * (s1 + s2 + s3)
  let seg4res :
      Except MErr
        (Option (ContinuousCurveSegment × DiscreteCurveSegment) × ℚ × ℚ × ℤ × Option ℚ) :=
    if eps < s4 then
      let s4_d : ℚ := ((⌊s4 * alpha⌋ : ℤ) : ℚ)
      let ai : ℚ := 0
      let ae : ℚ := 0
      let j : ℚ := 0
      let vi := ve
      let ve := vi
      let s := s4
      let t := s / vi
      let si := se
      let se := si + s
      let segment4 : ContinuousCurveSegment := ⟨4, t, vi, ve, ai, ae, j, si, se⟩
      let t4_err : Option ℚ := some 0
      let s4_err : ℚ := 0
      let s4_0 : ℚ := 0
      let t4_0 : Option ℚ := some 0
      let t4_d : Option ℚ := some 0
      let s4_stpOpt : Option ℤ := none
      let (t4_0, s4_0, s4_stpOpt, s4_d, t4_d, s_err, t_err, stp_err) :=
        if 0 < stp_err then
          let s_fix_err := (stp_err : ℚ) * beta - s_err
          if 2 * s_fix_err ≤ s4 then
            let t4_0 : Option ℚ := some (s_fix_err / vi)
            let s4_0 := s_fix_err
            let s4_stp := s_to_steps (s4 - 2 * s_fix_err) alpha eps
            let s4_d := s_fix_err + (s4_stp : ℚ) * beta
            let s4_stp := s4_stp + stp_err
            let t4_d := oAdd t_err t4_0
            (t4_0, s4_0, some s4_stp, s4_d, t4_d, (0 : ℚ), (some 0 : Option ℚ), (0 : ℤ))
          else
            (t4_0, s4_0, s4_stpOpt, s4_d, t4_d, s_err + s4, oAdd t_err (some t), stp_err)
        else (t4_0, s4_0, s4_stpOpt, s4_d, t4_d, s_err, t_err, stp_err)
      let (t4_err, s4_err, t_err, s_err, stp_err) :=
        if eps < s4 - s4_d then
          let t4e := oSub (some t) (some (s4_d / vi))
          let s4e := s4 - s4_d
          (t4e, s4e, oAdd t_err t4e, s_err + s4e, (⌈(s_err + s4e) * alpha⌉ : ℤ))
        else (t4_err, s4_err, t_err, s_err, stp_err)
      match s4_stpOpt with
      | none => .error (.unbound "s4_stp")
      | some s4_stp =>
        let stpi := stpe + 1
        let stpe := stpe + s4_stp
        let segment4d : DiscreteCurveSegment :=
          ⟨4, t, vi, ve, ai, ae, j, si, se, stpi, stpe, t4_d, t4_0, s4_0⟩
        .ok (some (segment4, segment4d), se, ve, stpe, t4_0)
    else .ok (none, se, ve, stpe, some 0)
  let (seg4pair, se, ve, stpe, t4_0) ← seg4res
  let hasSegment4 := seg4pair.isSome
  -- Segment 5, symmetrical to segment 3 (lines 320-351)
  let t := segment3.t
  let ai := ae
  let ae := -segment3.ai
  let j := segment3.j
  let vi := ve
  let ve := segment3.vi
  let s := segment3.s
  let si := se
  let se := si + s
  let segment5 : ContinuousCurveSegment := ⟨5, t, vi, ve, ai, ae, j, si, se⟩
  let s3_stp :=
    if s3_err ≤ s3 then s_to_steps (s3 - s3_err) alpha eps + ⌈s3_err * alpha⌉ else s3_stp
  let stpi := stpe + 1
  let stpe := stpe + s3_stp
  let segment5d : DiscreteCurveSegment :=
    if hasSegment4 then
      ⟨5, t, vi, ve, ai, ae, j, si, se, stpi, stpe, oAdd t3_err t4_0, t3_err, s3_err⟩
    else
      ⟨5, t, vi, ve, ai, ae, j, si, se, stpi, stpe, oMul (some 2) t3_err, t3_err, s3_err⟩
  -- Segment 6, symmetrical to segment 2 (lines 355-380)
  let t := segment2.t
  let ai := -segment2.ae
  let ae := -segment2.ae
  let j := segment2.j
  let vi := segment2.ve
  let ve := segment2.vi
  let s := segment2.s
  let si := se
  let se := si + s
  let segment6 : ContinuousCurveSegment := ⟨6, t, vi, ve, ai, ae, j, si, se⟩
  let s2_stp :=
    if s2_err ≤ s2 then s_to_steps (s2 - s2_err) alpha eps + ⌈s2_err * alpha⌉ else s2_stp
  let stpi := stpe + 1
  let stpe := stpe + s2_stp
  let segment6d : DiscreteCurveSegment :=
    ⟨6, t, vi, ve, ai, ae, j, si, se, stpi, stpe, oAdd t3_0 t2_err, t2_err, s2_err⟩
  -- Segment 7, symmetrical to segment 1 (lines 385-409)
  let t := segment1.t
  let ai := -segment1.ae
  let ae := -segment1.ai
  let j := segment1.j
  let vi := segment1.ve
  let ve := segment1.vi
  let s := segment1.s
  let si := se
  let se := si + s
  let segment7 : ContinuousCurveSegment := ⟨7, t, vi, ve, ai, ae, j, si, se⟩
  let s1_stp :=
    if s1_err ≤ s1 then s_to_steps (s1 - s1_err) alpha eps + ⌈s1_err * alpha⌉ else s1_stp
  let stpi := stpe + 1
  let stpe := stpe + s1_stp
  let segment7d : DiscreteCurveSegment :=
    ⟨7, t, vi, ve, ai, ae, j, si, se, stpi, stpe, oAdd t2_0 t1_err, t1_err, s1_err⟩
  let conts :=
    [segment1, segment2, segment3] ++
      (match seg4pair with | some p => [p.1] | none => []) ++
      [segment5, segment6, segment7]
  let dsegs :=
    [segment1d, segment2d, segment3d] ++
      (match seg4pair with | some p => [p.2] | none => []) ++
      [segment5d, segment6d, segment7d]
  return (conts, dsegs)

/-- SCurveFull.__bounds__ applied to a constraint record. -/
def boundsFull (c : MotionConstraint) (alpha : ℚ) :
    Except MErr (List ContinuousCurveSegment × List DiscreteCurveSegment) :=
  boundsCore c.v0 c.v c.a c.j c.s alpha

/-- The per-step body of Curve.__discretize__ (curve.py lines 197-213): emit
`n` more deltas for segment `g`, carrying the cursor `t`, the warm Newton
guess `x0`, the in-segment step counter `k` and the accumulated displacement
target `acc_s`. -/
def segDeltasGo (g : DiscreteCurveSegment) (beta s0 : ℚ) :
    ℕ → ℕ → Option ℚ → Option ℚ → ℚ → List (Option ℚ)
  | 0, _, _, _, _ => []
  | n + 1, k, t, x0, acc_s =>
    if g.id = 1 ∨ g.id = 3 ∨ g.id = 5 ∨ g.id = 7 then
      let tN := solve_third_order_newtonO g.j (3 * g.ai) (6 * g.vi)
        (-(6 * (acc_s + beta))) x0 (1 / 1000000000)
      let delta := oSub tN t
      let x0N := oAdd (oDiv (some beta) (g.fvO tN)) tN
      delta :: segDeltasGo g beta s0 n (k + 1) tN x0N (s0 + (k + 1 : ℕ) * beta)
    else if g.id = 2 ∨ g.id = 6 then
      let tN := solve_second_order_posV (0.5 * g.ai) g.vi (-(acc_s + beta))
      let delta := oSub tN t
      delta :: segDeltasGo g beta s0 n (k + 1) tN x0 (s0 + (k + 1 : ℕ) * beta)
    else
      (some (beta / g.vi)) :: segDeltasGo g beta s0 n (k + 1) t x0 (s0 + (k + 1 : ℕ) * beta)

/-- One iteration of the outer `for segment in discreteSegments` loop of
Curve.__discretize__ (curve.py lines 132-213): the optional straddle delta,
then the `while step < stpe` loop; returns the emitted deltas and the global
step counter after the segment. -/
def segmentDeltas (beta : ℚ) (g : DiscreteCurveSegment) (step : ℤ) :
    List (Option ℚ) × ℤ :=
  let branch := oGTb g.td (some 0) || decide (g.t = 0)
  let (first, t, acc_s, step1) :=
    if branch then ([g.td], g.t0, g.s0, step + 1)
    else (([] : List (Option ℚ)), (some 0 : Option ℚ), (0 : ℚ), step)
  let n := (g.stpe - step1).toNat
  let x0 := oDiv (some beta) (some g.vi)
  (first ++ segDeltasGo g beta g.s0 n 0 t x0 acc_s, step1 + (n : ℤ))

/-- The outer loop of Curve.__discretize__ over all discrete segments. -/
def discretizeGo (beta : ℚ) : List DiscreteCurveSegment → ℤ → List (Option ℚ)
  | [], _ => []
  | g :: rest, step =>
    let p := segmentDeltas beta g step
    p.1 ++ discretizeGo beta rest p.2

/-- Curve.__discretize__ (curve.py lines 120-215): the emitted delta vector. -/
def discretizeModel (beta : ℚ) (l : List DiscreteCurveSegment) : List (Option ℚ) :=
  discretizeGo beta l 0

/-- The sum, over the discrete segments, of `stpe - stpi + 1`. -/
def stepsOfSegs (l : List DiscreteCurveSegment) : ℤ :=
  (l.map fun g => g.stpe - g.stpi + 1).sum

/-- The discrete segments are consecutively indexed starting right after
`step` and each is nonempty. -/
def wellChained : ℤ → List DiscreteCurveSegment → Bool
  | _, [] => true
  | step, g :: rest =>
    decide (g.stpi = step + 1) && decide (g.stpi ≤ g.stpe) && wellChained g.stpe rest

/-- Curve.solve (curve.py lines 227-239) specialised to SCurveFull: run the
motion-only solver, then (when a time target is present) the time-and-motion
solver, then bounds and discretize.  Returns the solved flag, the final
constraint record, and — when bounds ran — the segment lists and delta
vector. -/
def scurveFullSolve (c : MotionConstraint) (alpha : ℚ) :
    Except MErr
      (Bool × MotionConstraint ×
        Option (List ContinuousCurveSegment × List DiscreteCurveSegment × List (Option ℚ))) := do
  let (solved1, c1) ← solveMotionFull c alpha
  let (solved2, c2) ←
    if 0 < c1.t then solveTimeMotionFull c1 alpha else (.ok (solved1, c1) : Except MErr _)
  if solved2 then
    match boundsCore c2.v0 c2.v c2.a c2.j c2.s alpha with
    | .error e => .error e
    | .ok sl => .ok (true, c2, some (sl.1, sl.2, discretizeModel (1 / alpha) sl.2))
  else
    .ok (false, c2, none)

/-- Observable outcome of `scurveFullSolve`: the solved flag and, when bounds
ran, the segment lists and delta vector — everything except the scratch
fields of the returned constraint record. -/
def solveObs (r :
    Except MErr
      (Bool × MotionConstraint ×
        Option (List ContinuousCurveSegment × List DiscreteCurveSegment × List (Option ℚ)))) :
    Except MErr
      (Bool × Option (List ContinuousCurveSegment × List DiscreteCurveSegment × List (Option ℚ))) :=
  r.map fun x => (x.1, x.2.2)

/-- The class and function names that the module curve.py defines at top
level (curve.py lines 11, 50, 57, 71). -/
def curveModuleClasses : List String :=
  ["CurveSegment", "ContinuousCurveSegment", "DiscreteCurveSegment", "Curve"]

/-- The names that s_curve_partial.py line 6 imports from the module curve:
`from curve import Curve, CurvePhase, ContinuousCurvePhase, DiscreteCurvePhase`. -/
def sCurvePartialImportList : List String :=
  ["Curve", "CurvePhase", "ContinuousCurvePhase", "DiscreteCurvePhase"]

/-- The methods of the class Curve (curve.py lines 72-399). -/
def curveMethods : List String :=
  ["__init__", "__check_min_displacement__", "__get_min_steps__", "__get_totals",
   "__discretize__", "addSegment", "solve", "getTotalTime", "getMaxVelocity",
   "getMaxAcceleration", "getProfile", "continuousDump", "discreteDump",
   "plotV", "plotA", "plotS"]

/-- Methods of the base class Curve that s_curve_partial.py invokes on
`self`/`super()` (s_curve_partial.py lines 87, 115, ..., 328, 349, 372). -/
def sCurvePartialBaseCalls : List String :=
  ["addPhase", "__check_min_steps__"]

/-- Projection of a bounds result to the sum over discrete segments of
`stpe - stpi + 1`; `none` when bounds fails. -/
def boundsSteps (c : MotionConstraint) (alpha : ℚ) : Option ℤ :=
  (boundsFull c alpha).toOption.map fun p => stepsOfSegs p.2

/-- Projection of a bounds result to the chaining check on its discrete
segments. -/
def boundsChained (c : MotionConstraint) (alpha : ℚ) : Option Bool :=
  (boundsFull c alpha).toOption.map fun p => wellChained 0 p.2

/-- The solved flag of a full `solve` run; `none` when the model stops. -/
def solveFlag (c : MotionConstraint) (alpha : ℚ) : Option Bool :=
  (scurveFullSolve c alpha).toOption.map fun r => r.1

/-- A request with `T = 0` that the motion-only solver accepts unchanged and
whose discrete profile carries 15 steps although `⌊S·α⌋ = 14` (with α = 1):
`v₀ = 27/25`, `V = 93/25`, `A = J = 33/25`, `S = 72/5`.  The segment
displacements are exactly `s₁ = 13/10`, `s₂ = 12/5`, `s₃ = 7/2`, so
`s₁+s₂+s₃ = S/2` and the constant-velocity segment 4 is absent. -/
def reqC1 : MotionConstraint := ⟨27/25, 93/25, 33/25, 33/25, 72/5, 0, none, none⟩

/-- The discrete segments that bounds emits for `reqC1` (empty if bounds were
to fail, which it does not). -/
def reqC1dsegs : List DiscreteCurveSegment :=
  ((boundsFull reqC1 1).toOption.map fun p => p.2).getD []

/-- A request on which the motion-only solver fails after the a_peak
pre-adjustment: `v₀ = 1`, `V = 2`, `A = 2`, `J = 1`, `S = 1/10`, `T = 0`.
With `α = 400/29997` (so `β = 29997/400`) the pre-adjustment root is exactly
`1/100`, which also makes the bisection run zero iterations. -/
def reqC2 : MotionConstraint := ⟨1, 2, 2, 1, 1/10, 0, none, none⟩

/-- The resolution paired with `reqC2`. -/
def alphaC2 : ℚ := 400 / 29997

/-- A request whose first bisection trial computes `v_trial = 2 = V` exactly:
`v₀ = 1`, `V = 2`, `A = 2`, `J = 4`, `S = 15/4`, `T = 0`, `α = 1/10`. -/
def reqC4 : MotionConstraint := ⟨1, 2, 2, 4, 15/4, 0, none, none⟩

/-- The initial bisection state of the motion-only solver on `reqC4`. -/
def stC4 : MState := ⟨reqC4, 0, 2, none⟩

/-- A state and request on which the first bisection trial accepts:
`v₀ = 1`, `V = 4`, `J = 1`, `S = 12`, trial acceleration `1`, `β = 1`,
candidate velocity exactly `3`. -/
def stC4acc : MState := ⟨⟨1, 4, 2, 1, 12, 0, none, none⟩, 0, 2, none⟩

/-- A request whose solved constraints make segment 1 land exactly on a step
boundary (`s₁ = 1` at `α = 1`), so `__bounds__` skips the only assignment to
`stp_err` and then reads it: `v₀ = 5/6`, `V = 3`, `A = J = 1`, `S = 13`. -/
def reqC5 : MotionConstraint := ⟨5/6, 3, 1, 1, 13, 0, none, none⟩

/-- `reqC1` with a time target `T = 14`, for which `S = 72/5 ≤ v₀·T = 378/25`:
the time-and-motion solver must refuse it at the guard. -/
def reqC8 : MotionConstraint := ⟨27/25, 93/25, 33/25, 33/25, 72/5, 14, none, none⟩

/-- A request on which the solver stops quickly (its first trial discriminant
is irrational), used to witness determinism: `v₀ = 1`, `V = 2`, `A = 2`,
`J = 9`, `S = 1/10`, `T = 0`. -/
def reqC10 : MotionConstraint := ⟨1, 2, 2, 9, 1/10, 0, none, none⟩

/-- The same request with dirty undo scratch fields. -/
def reqC10' : MotionConstraint := ⟨1, 2, 2, 9, 1/10, 0, some 7, some 11⟩

/-- Everything observable about a bisection state: the public constraint
fields and the three loop locals.  The undo scratch is excluded. -/
def MStateObs (st : MState) : (ℚ × ℚ × ℚ × ℚ × ℚ × ℚ) × ℚ × ℚ × Option ℚ :=
  (st.c.pub, st.minA, st.maxA, st.minV)

/-- Everything observable about a solver result: the flag and the public
constraint fields. -/
def TObs (p : Bool × MotionConstraint) : Bool × (ℚ × ℚ × ℚ × ℚ × ℚ × ℚ) :=
  (p.1, p.2.pub)

/-- Decidable equality on `Except`, needed so concrete solver outcomes can be
settled by `decide`. -/
instance instDecEqExcept {ε α : Type} [DecidableEq ε] [DecidableEq α] :
    DecidableEq (Except ε α)
  | .ok a, .ok b =>
    if h : a = b then .isTrue (by rw [h]) else .isFalse (by simp [h])
  | .ok _, .error _ => .isFalse (by simp)
  | .error _, .ok _ => .isFalse (by simp)
  | .error e, .error f =>
    if h : e = f then .isTrue (by rw [h]) else .isFalse (by simp [h])

/-- Helper: undoing an acceleration update restores the record up to the
scratch field. -/
theorem restore_a_update_a (c : MotionConstraint) (x : ℚ) :
    (c.update_a x).restore_a = { c with aPrev := some c.a } := rfl

/-- Helper: undoing a velocity update restores the record up to the scratch
field. -/
theorem restore_v_update_v (c : MotionConstraint) (x : ℚ) :
    (c.update_v x).restore_v = { c with vPrev := some c.v } := rfl

/-- C7: for every displacement `s`, resolution `alpha` and tolerance
`epsilon`, `s_to_steps` equals `let r := s·alpha, k := ⌈r⌉` in
`if k - r < epsilon then k else k - 1`, and it returns `k` (rather than
`k - 1`) exactly when `r` is within `epsilon` below its ceiling. -/
theorem C7_step_quantizer :
    ∀ s alpha epsilon : ℚ,
      s_to_steps s alpha epsilon =
        (let r := s * alpha
         let k := ⌈r⌉
         if (k : ℚ) - r < epsilon then k else k - 1) ∧
      (s_to_steps s alpha epsilon = ⌈s * alpha⌉ ↔
        (⌈s * alpha⌉ : ℚ) - s * alpha < epsilon) := by
  intro s alpha epsilon
  refine ⟨rfl, ?_⟩
  unfold s_to_steps
  by_cases h : (⌈s * alpha⌉ : ℚ) - s * alpha < epsilon
  · simp [h]
  · simp only [if_neg h]
    constructor
    · intro h1
      omega
    · intro h1
      exact absurd h1 h

/-- C9: updating and then restoring the acceleration leaves the field `a` at
its value before the update, likewise for `v`, and one level of undo is
available right after each update (the scratch slot holds the previous
value). -/
theorem C9_update_restore :
    ∀ (c : MotionConstraint) (x : ℚ),
      ((c.update_a x).restore_a).a = c.a ∧
      ((c.update_v x).restore_v).v = c.v ∧
      (c.update_a x).aPrev = some c.a ∧
      (c.update_v x).vPrev = some c.v :=
  fun _ _ => ⟨rfl, rfl, rfl, rfl⟩

/-- C3: the automatic Full-to-Partial fallback of Motion.simulate cannot
execute as specified, because s_curve_partial.py imports the names
`CurvePhase`, `ContinuousCurvePhase` and `DiscreteCurvePhase` from the module
curve, which defines none of them (it defines the `...Segment` classes), and
it invokes the base-class methods `addPhase` and `__check_min_steps__`, which
the class `Curve` does not define either.  Loading the module therefore
raises `ImportError` before `Motion.simulate` can run. -/
theorem C3_facade_import_bug :
    ("CurvePhase" ∈ sCurvePartialImportList ∧ "CurvePhase" ∉ curveModuleClasses) ∧
    ("ContinuousCurvePhase" ∈ sCurvePartialImportList ∧
      "ContinuousCurvePhase" ∉ curveModuleClasses) ∧
    ("DiscreteCurvePhase" ∈ sCurvePartialImportList ∧
      "DiscreteCurvePhase" ∉ curveModuleClasses) ∧
    ("addPhase" ∈ sCurvePartialBaseCalls ∧ "addPhase" ∉ curveMethods) ∧
    ("__check_min_steps__" ∈ sCurvePartialBaseCalls ∧
      "__check_min_steps__" ∉ curveMethods) := by
  decide

/-- C5: there is a constraint set that the motion-only solver accepts
unchanged (so it reaches `__bounds__`) on which `__bounds__` reads the local
`stp_err` before any assignment: segment 1's displacement is exactly one step
(`s₁ = 1` at `α = 1`), so the conditional that assigns `stp_err` is skipped,
and the unconditional read at segment 2 raises `NameError` instead of
emitting a profile. -/
theorem C5_unassigned_local_read :
    solveMotionFull reqC5 1 = .ok (true, reqC5) ∧
    boundsFull reqC5 1 = .error (.unbound "stp_err") := by
  constructor
  · decide
  · decide

/-- C1 counterexample: the request `reqC1` (with `T = 0` and `α = 1`) is
accepted by `solve` — the motion-only solver accepts it unchanged and bounds
and discretize complete — yet the discrete segments carry
`Σ (stpe - stpi + 1) = 15` steps while `⌊S·α⌋ = 14`. -/
theorem C1_step_exactness_cex :
    solveMotionFull reqC1 1 = .ok (true, reqC1) ∧
    solveFlag reqC1 1 = some true ∧
    boundsSteps reqC1 1 = some 15 ∧
    (⌊reqC1.s * (1 : ℚ)⌋ : ℤ) = 14 ∧
    boundsSteps reqC1 1 ≠ some ⌊reqC1.s * (1 : ℚ)⌋ := by
  refine ⟨by decide, by decide, by decide, by decide, by decide⟩

/-- C2 counterexample: on `reqC2` with `α = 400/29997` the motion-only solver
returns false, but the request's acceleration field has been changed from 2
to 1/100 by the a_peak pre-adjustment, which no code path restores. -/
theorem C2_atomicity_cex :
    solveMotionFull reqC2 alphaC2 = .ok (false, reqC2.update_a (1/100)) ∧
    (reqC2.update_a (1/100)).a ≠ reqC2.a := by
  refine ⟨by decide, by decide⟩

/-- C4 counterexample: on `reqC4` (`β = 10`) the entry feasibility check
fails, so the bisection starts at `(a_lo, a_hi) = (0, A) = (0, 2)`; the first
trial acceleration is 1 and its candidate velocity is exactly `2 = V`.  The
claim says the solver raises `a_lo` in this situation; the trial in fact
leaves `a_lo = 0` and lowers `a_hi` to 1, because the acceptance test
requires `v_trial < V` strictly. -/
theorem C4_trial_direction_cex :
    ¬ (reqC4.j * (reqC4.v - reqC4.v0) < reqC4.a ^ 2) ∧
    SCurveFull.check_min_displacement reqC4 10 = false ∧
    bisectIters ((reqC4.a - 0) / Curve.solve_error) = 8 ∧
    solve_second_order_pos 1 ((1 : ℚ) ^ 2 / reqC4.j)
      ((1 : ℚ) ^ 2 * reqC4.v0 / reqC4.j - reqC4.v0 ^ 2 - reqC4.s * 1) = .ok (some 2) ∧
    ¬ ((2 : ℚ) < reqC4.v) ∧
    motionTrial 10 stC4 = .ok ⟨⟨1, 2, 2, 4, 15/4, 0, some 2, none⟩, 0, 1, none⟩ := by
  refine ⟨by decide, by decide, by decide, by decide, by decide, by decide⟩

/-- Helper: the inner discretization loop emits exactly as many deltas as its
countdown says, whatever the segment or numeric state. -/
theorem segDeltasGo_length (g : DiscreteCurveSegment) (beta s0 : ℚ) :
    ∀ (n k : ℕ) (t x0 : Option ℚ) (acc : ℚ),
      (segDeltasGo g beta s0 n k t x0 acc).length = n := by
  intro n
  induction n with
  | zero => intro k t x0 acc; rfl
  | succ m ih =>
    intro k t x0 acc
    unfold segDeltasGo
    split
    · simp [ih]
    · split
      · simp [ih]
      · simp [ih]

/-- Helper: a nonempty segment whose step range starts right after the global
counter emits exactly `stpe - stpi + 1` deltas and leaves the counter at
`stpe`, whether or not the straddle-delta branch fires. -/
theorem segmentDeltas_len (beta : ℚ) (g : DiscreteCurveSegment) (step : ℤ)
    (h1 : g.stpi = step + 1) (h2 : g.stpi ≤ g.stpe) :
    ((segmentDeltas beta g step).1.length : ℤ) = g.stpe - g.stpi + 1 ∧
    (segmentDeltas beta g step).2 = g.stpe := by
  unfold segmentDeltas
  by_cases hbr : (oGTb g.td (some 0) || decide (g.t = 0)) = true
  · simp only [hbr, if_true, List.length_append, List.length_cons, List.length_nil,
      segDeltasGo_length]
    constructor
    · push_cast
      omega
    · omega
  · simp only [hbr, if_false, Bool.false_eq_true, List.length_append, List.length_nil,
      segDeltasGo_length]
    constructor
    · push_cast
      omega
    · omega

/-- Helper: over a well-chained segment list the discretizer emits one delta
per counted step. -/
theorem discretizeGo_len (beta : ℚ) :
    ∀ (l : List DiscreteCurveSegment) (step : ℤ), wellChained step l = true →
      ((discretizeGo beta l step).length : ℤ) = stepsOfSegs l := by
  intro l
  induction l with
  | nil => intro step h; simp [discretizeGo, stepsOfSegs]
  | cons g rest ih =>
    intro step h
    simp only [wellChained, Bool.and_eq_true, decide_eq_true_eq] at h
    obtain ⟨⟨h1, h2⟩, h3⟩ := h
    obtain ⟨hl, hs⟩ := segmentDeltas_len beta g step h1 h2
    simp only [discretizeGo, List.length_append]
    push_cast
    rw [hl, hs, ih _ h3]
    simp [stepsOfSegs]

/-- C1 amended: the delta vector always carries exactly
`Σ (stpe - stpi + 1)` entries when the discrete segments are nonempty and
consecutively indexed (which they are on every run considered here), but that
sum need not equal `⌊S·α⌋`: on the accepted request `reqC1` with `T = 0` and
`α = 1` the segments carry 15 steps while `⌊S·α⌋ = 14`. -/
theorem C1_step_exactness_amended :
    (∀ (beta : ℚ) (step : ℤ) (l : List DiscreteCurveSegment),
        wellChained step l = true →
        ((discretizeGo beta l step).length : ℤ) = stepsOfSegs l) ∧
    solveMotionFull reqC1 1 = .ok (true, reqC1) ∧
    boundsSteps reqC1 1 = some 15 ∧
    boundsChained reqC1 1 = some true ∧
    (⌊reqC1.s * (1 : ℚ)⌋ : ℤ) = 14 := by
  refine ⟨fun beta step l h => discretizeGo_len beta l step h,
    by decide, by decide, by decide, by decide⟩

/-- C1 witness: the chaining hypothesis holds on the segments bounds emits
for `reqC1`, so its delta vector has exactly `stepsOfSegs` entries. -/
theorem C1_step_exactness_witness :
    wellChained 0 reqC1dsegs = true ∧
    ((discretizeModel 1 reqC1dsegs).length : ℤ) = stepsOfSegs reqC1dsegs :=
  ⟨by decide, C1_step_exactness_amended.1 1 0 reqC1dsegs (by decide)⟩

/-- C6: stopping structure of the damped-Newton loop: the guard makes the
loop stop exactly when the step error fails to exceed `err` (comparisons
involving the not-a-number sentinel are false, so a NaN step error also stops
it) or equals the previous step error, and whenever the step error strictly
exceeds the previous one the loop body overwrites the iterate with the
not-a-number sentinel, which stops the loop at the next test.  The guard
consults only the current and previous step errors: the loop state carries no
iteration counter and the loop applies no step bound. -/
theorem C6_newton_guard_structure :
    (∀ (err : ℚ) (st : NewtonState),
        newtonCont err st = false ↔
          (oGTb st.error (some err) = false ∨ oNeB st.error st.prevError = false)) ∧
    (∀ (a b c d : ℚ) (st : NewtonState),
        oGTb (newtonStepF a b c d st).error (newtonStepF a b c d st).prevError = true →
          (newtonStepF a b c d st).x1 = none) := by
  constructor
  · intro err st
    unfold newtonCont
    rw [Bool.and_eq_false_iff]
  · intro a b c d st h
    revert h
    unfold newtonStepF
    intro h
    simp only at h ⊢
    rw [if_pos h]

/-- Helper: bind on a successful `Except` just applies the continuation. -/
theorem ok_bind {ε α β : Type} (x : α) (f : α → Except ε β) :
    (Except.ok x : Except ε α) >>= f = f x := rfl

/-- Helper: bind on a failed `Except` propagates the failure. -/
theorem error_bind {ε α β : Type} (e : ε) (f : α → Except ε β) :
    (Except.error e : Except ε α) >>= f = .error e := rfl

/-- Helper: a single motion-only bisection trial returns the constraint
record with every request field — including `a` and `v` — equal to its value
at the start of the trial: the trial's `update_a`/`update_v` are always
undone by `restore_a`/`restore_v` before the trial ends. -/
theorem motionTrial_pres (beta : ℚ) (st st' : MState)
    (h : motionTrial beta st = .ok st') :
    st'.c.v0 = st.c.v0 ∧ st'.c.v = st.c.v ∧ st'.c.a = st.c.a ∧
    st'.c.j = st.c.j ∧ st'.c.s = st.c.s ∧ st'.c.t = st.c.t := by
  unfold motionTrial at h
  dsimp only [] at h
  split at h
  · cases h
  · split at h
    · split at h
      · cases h
        exact ⟨rfl, rfl, rfl, rfl, rfl, rfl⟩
      · cases h
        exact ⟨rfl, rfl, rfl, rfl, rfl, rfl⟩
    · cases h
      exact ⟨rfl, rfl, rfl, rfl, rfl, rfl⟩
  · cases h
    exact ⟨rfl, rfl, rfl, rfl, rfl, rfl⟩

/-- Helper: the whole motion-only bisection loop preserves every request
field of the constraint record (only the interval locals move). -/
theorem motionLoop_pres (beta : ℚ) :
    ∀ (n : ℕ) (st st' : MState), motionLoop beta n st = .ok st' →
      st'.c.v0 = st.c.v0 ∧ st'.c.v = st.c.v ∧ st'.c.a = st.c.a ∧
      st'.c.j = st.c.j ∧ st'.c.s = st.c.s ∧ st'.c.t = st.c.t := by
  intro n
  induction n with
  | zero =>
    intro st st' h
    cases h
    exact ⟨rfl, rfl, rfl, rfl, rfl, rfl⟩
  | succ m ih =>
    intro st st' h
    unfold motionLoop at h
    cases htr : motionTrial beta st with
    | error e =>
      rw [htr] at h
      cases h
    | ok stm =>
      rw [htr] at h
      rw [show (Except.ok stm : Except MErr MState).bind (motionLoop beta m) =
        motionLoop beta m stm from rfl] at h
      obtain ⟨a1, a2, a3, a4, a5, a6⟩ := motionTrial_pres beta st stm htr
      obtain ⟨b1, b2, b3, b4, b5, b6⟩ := ih stm st' h
      exact ⟨b1.trans a1, b2.trans a2, b3.trans a3, b4.trans a4, b5.trans a5, b6.trans a6⟩

/-- Helper: the part of the motion-only solver after the a_peak
pre-adjustment — the entry feasibility check and the bisection — returns a
constraint record that keeps `v0, j, s, t`, and on failure also keeps `v` and
`a`, relative to the pre-adjusted record. -/
theorem motionTail (c1 : MotionConstraint) (alpha : ℚ) (b : Bool) (r : MotionConstraint)
    (h : (if SCurveFull.check_min_displacement c1 (1 / alpha) then
            (Except.ok (true, c1) : Except MErr (Bool × MotionConstraint))
          else do
            let st ← motionLoop (1 / alpha) (bisectIters ((c1.a - 0) / Curve.solve_error))
              { c := c1, minA := 0, maxA := c1.a, minV := none }
            if 0 < st.minA then
              match st.minV with
              | some mv => Except.ok (true, (st.c.update_a st.minA).update_v mv)
              | none => Except.error (MErr.unbound "min_v")
            else Except.ok (false, st.c)) = Except.ok (b, r)) :
    (r.v0 = c1.v0 ∧ r.j = c1.j ∧ r.s = c1.s ∧ r.t = c1.t) ∧
    (b = false → r.v = c1.v ∧ r.a = c1.a) := by
  split at h
  · cases h
    exact ⟨⟨rfl, rfl, rfl, rfl⟩, fun hb => absurd hb (by decide)⟩
  · cases hL : motionLoop (1 / alpha) (bisectIters ((c1.a - 0) / Curve.solve_error))
        { c := c1, minA := 0, maxA := c1.a, minV := none } with
    | error e =>
      rw [hL] at h
      rw [error_bind] at h
      cases h
    | ok stf =>
      rw [hL] at h
      rw [ok_bind] at h
      obtain ⟨p1, p2, p3, p4, p5, p6⟩ := motionLoop_pres (1 / alpha) _ _ _ hL
      split at h
      · split at h
        · cases h
          exact ⟨⟨p1, p4, p5, p6⟩, fun hb => absurd hb (by decide)⟩
        · cases h
      · cases h
        exact ⟨⟨p1, p4, p5, p6⟩, fun _ => ⟨p2, p3⟩⟩

/-- Helper: whatever the motion-only solver returns, the fields `v0, j, s, t`
of the request are unchanged; and on failure `v` is unchanged as well while
`a` is either its entry value or the a_peak pre-adjustment root (which is not
undone). -/
theorem solveMotionFull_shape (c : MotionConstraint) (alpha : ℚ) (b : Bool)
    (r : MotionConstraint) (h : solveMotionFull c alpha = .ok (b, r)) :
    (r.v0 = c.v0 ∧ r.j = c.j ∧ r.s = c.s ∧ r.t = c.t) ∧
    (b = false →
      r.v = c.v ∧
      (r.a = c.a ∨
        solve_second_order_pos (c.v + c.v0) (2 * Curve.min_segment_steps * (1 / alpha) * c.j)
          (-(c.j * (c.v ^ 2 - c.v0 ^ 2))) = .ok (some r.a))) := by
  unfold solveMotionFull at h
  dsimp only [] at h
  split at h
  · split at h
    · rw [error_bind] at h
      cases h
    · rename_i a_ heq
      rw [ok_bind] at h
      obtain ⟨⟨q1, q2, q3, q4⟩, q5⟩ := motionTail (c.update_a a_) alpha b r h
      refine ⟨⟨q1, q2, q3, q4⟩, ?_⟩
      intro hb
      obtain ⟨hv, ha⟩ := q5 hb
      refine ⟨hv, Or.inr ?_⟩
      rw [show r.a = a_ from ha]
      exact heq
    · rw [error_bind] at h
      cases h
  · obtain ⟨⟨q1, q2, q3, q4⟩, q5⟩ := motionTail c alpha b r h
    refine ⟨⟨q1, q2, q3, q4⟩, ?_⟩
    intro hb
    obtain ⟨hv, ha⟩ := q5 hb
    exact ⟨hv, Or.inl ha⟩

/-- C2 amended: every `update_a`/`update_v` performed during a bisection
trial is undone before the trial ends, and on failure the solver leaves
`v0, V, J, S, T` unchanged; but the a_peak pre-adjustment `update_a` is not
undone, so on failure `A` is either its entry value or the pre-adjustment
root (at `reqC2` with `α = 400/29997` it is left at `1/100` instead of 2). -/
theorem C2_atomicity_amended :
    (∀ (beta : ℚ) (st st' : MState), motionTrial beta st = .ok st' →
        st'.c.a = st.c.a ∧ st'.c.v = st.c.v) ∧
    (∀ (c : MotionConstraint) (alpha : ℚ) (r : MotionConstraint),
        solveMotionFull c alpha = .ok (false, r) →
        r.v0 = c.v0 ∧ r.v = c.v ∧ r.j = c.j ∧ r.s = c.s ∧ r.t = c.t ∧
        (r.a = c.a ∨
          solve_second_order_pos (c.v + c.v0) (2 * Curve.min_segment_steps * (1 / alpha) * c.j)
            (-(c.j * (c.v ^ 2 - c.v0 ^ 2))) = .ok (some r.a))) := by
  constructor
  · intro beta st st' h
    obtain ⟨_, h2, h3, _, _, _⟩ := motionTrial_pres beta st st' h
    exact ⟨h3, h2⟩
  · intro c alpha r h
    obtain ⟨⟨q1, q2, q3, q4⟩, q5⟩ := solveMotionFull_shape c alpha false r h
    obtain ⟨hv, ha⟩ := q5 rfl
    exact ⟨q1, hv, q2, q3, q4, ha⟩

/-- C2 witness: the failure-path conclusion instantiated at `reqC2`, whose
solver run returns false with the acceleration left at the pre-adjustment
root `1/100`. -/
theorem C2_atomicity_witness :
    (reqC2.update_a (1/100)).v0 = reqC2.v0 ∧ (reqC2.update_a (1/100)).v = reqC2.v ∧
    (reqC2.update_a (1/100)).j = reqC2.j ∧ (reqC2.update_a (1/100)).s = reqC2.s ∧
    (reqC2.update_a (1/100)).t = reqC2.t ∧
    ((reqC2.update_a (1/100)).a = reqC2.a ∨
      solve_second_order_pos (reqC2.v + reqC2.v0)
        (2 * Curve.min_segment_steps * (1 / alphaC2) * reqC2.j)
        (-(reqC2.j * (reqC2.v ^ 2 - reqC2.v0 ^ 2)))
        = .ok (some (reqC2.update_a (1/100)).a)) :=
  C2_atomicity_amended.2 reqC2 alphaC2 (reqC2.update_a (1/100)) (by decide)

/-- Helper: the time-and-motion solver refuses a request whose displacement
is already covered by coasting at the entry velocity, without touching it. -/
theorem solveTimeMotion_guard (c : MotionConstraint) (alpha : ℚ) (h : c.s ≤ c.v0 * c.t) :
    solveTimeMotionFull c alpha = .ok (false, c) := by
  unfold solveTimeMotionFull
  dsimp only []
  rw [if_pos h]

/-- C8: for every request with `S ≤ v₀·T` the time-and-motion solver returns
false at its guard with the request untouched; it can only return true when
`S > v₀·T`; and (for `T > 0`) the whole `solve` pipeline then reports failure
without building any segments or deltas. -/
theorem C8_time_guard :
    ∀ (c : MotionConstraint) (alph : ℚ),
      (c.s ≤ c.v0 * c.t → solveTimeMotionFull c alph = .ok (false, c)) ∧
      (∀ r : Bool × MotionConstraint,
        solveTimeMotionFull c alph = .ok r → r.1 = true → c.v0 * c.t < c.s) ∧
      (c.s ≤ c.v0 * c.t → 0 < c.t →
        ∀ (bb : Bool) (c2 : MotionConstraint)
          (out : Option (List ContinuousCurveSegment × List DiscreteCurveSegment ×
            List (Option ℚ))),
          scurveFullSolve c alph = .ok (bb, c2, out) → bb = false ∧ out = none) := by
  intro c alph
  refine ⟨fun h => solveTimeMotion_guard c alph h, ?_, ?_⟩
  · intro r hr htrue
    by_cases hle : c.s ≤ c.v0 * c.t
    · rw [solveTimeMotion_guard c alph hle] at hr
      cases hr
      simp at htrue
    · exact not_le.mp hle
  · intro hle ht bb c2 out hp
    unfold scurveFullSolve at hp
    dsimp only [] at hp
    cases hm : solveMotionFull c alph with
    | error e =>
      rw [hm, error_bind] at hp
      cases hp
    | ok p =>
      obtain ⟨b1, c1⟩ := p
      rw [hm, ok_bind] at hp
      dsimp only [] at hp
      obtain ⟨⟨k1, k2, k3, k4⟩, _⟩ := solveMotionFull_shape c alph b1 c1 hm
      have ht1 : 0 < c1.t := by rw [k4]; exact ht
      rw [if_pos ht1] at hp
      have hle1 : c1.s ≤ c1.v0 * c1.t := by rw [k3, k1, k4]; exact hle
      rw [solveTimeMotion_guard c1 alph hle1, ok_bind] at hp
      dsimp only [] at hp
      cases hp
      exact ⟨rfl, rfl⟩

/-- C8 witness: `reqC8` has `S = 72/5 ≤ v₀·T = 378/25`, the time solver
refuses it unchanged, and the pipeline reports failure with no output. -/
theorem C8_time_guard_witness :
    solveTimeMotionFull reqC8 1 = .ok (false, reqC8) ∧
    (false = false ∧
      (none : Option (List ContinuousCurveSegment × List DiscreteCurveSegment ×
        List (Option ℚ))) = none) :=
  ⟨(C8_time_guard reqC8 1).1 (by decide),
   (C8_time_guard reqC8 1).2.2 (by decide) (by decide) false reqC8 none (by decide)⟩

/-- C4 amended: in each motion-only bisection trial with candidate velocity
`v_trial`, the trial is accepted — `a_lo` raised to the trial acceleration
and `(a_trial, v_trial)` remembered — exactly when `v_trial` is a real
number strictly inside `(v₀, V)` and `check_min_displacement` holds; on every
rejection `a_hi` is lowered to the trial acceleration, and in particular when
`v_trial ≥ V` the solver lowers `a_hi` (the acceptance test requires
`v_trial < V` strictly). -/
theorem C4_trial_direction_amended :
    ∀ (beta : ℚ) (st st' : MState) (v : ℚ),
      motionTrial beta st = .ok st' →
      solve_second_order_pos 1
          ((st.c.update_a (0.5 * (st.minA + st.maxA))).a ^ 2 /
            (st.c.update_a (0.5 * (st.minA + st.maxA))).j)
          ((st.c.update_a (0.5 * (st.minA + st.maxA))).a ^ 2 *
              (st.c.update_a (0.5 * (st.minA + st.maxA))).v0 /
              (st.c.update_a (0.5 * (st.minA + st.maxA))).j -
            (st.c.update_a (0.5 * (st.minA + st.maxA))).v0 ^ 2 -
            (st.c.update_a (0.5 * (st.minA + st.maxA))).s *
              (st.c.update_a (0.5 * (st.minA + st.maxA))).a) = .ok (some v) →
      ((st.c.v0 < v ∧ v < st.c.v) →
        SCurveFull.check_min_displacement ((st.c.update_a (0.5 * (st.minA + st.maxA))).update_v v)
            beta = true →
        st'.minA = 0.5 * (st.minA + st.maxA) ∧ st'.maxA = st.maxA ∧ st'.minV = some v) ∧
      ((st.c.v0 < v ∧ v < st.c.v) →
        SCurveFull.check_min_displacement ((st.c.update_a (0.5 * (st.minA + st.maxA))).update_v v)
            beta = false →
        st'.minA = st.minA ∧ st'.maxA = 0.5 * (st.minA + st.maxA) ∧ st'.minV = st.minV) ∧
      (¬ (st.c.v0 < v ∧ v < st.c.v) →
        st'.minA = st.minA ∧ st'.maxA = 0.5 * (st.minA + st.maxA) ∧ st'.minV = st.minV) ∧
      (st.c.v ≤ v →
        st'.minA = st.minA ∧ st'.maxA = 0.5 * (st.minA + st.maxA) ∧ st'.minV = st.minV) := by
  intro beta st st' v h hv
  unfold motionTrial at h
  dsimp only [] at h
  rw [hv] at h
  dsimp only [] at h
  refine ⟨?_, ?_, ?_, ?_⟩
  · intro hin hchk
    rw [if_pos (show (st.c.update_a (0.5 * (st.minA + st.maxA))).v0 < v ∧
        v < (st.c.update_a (0.5 * (st.minA + st.maxA))).v from hin)] at h
    rw [if_pos hchk] at h
    cases h
    exact ⟨rfl, rfl, rfl⟩
  · intro hin hchk
    rw [if_pos (show (st.c.update_a (0.5 * (st.minA + st.maxA))).v0 < v ∧
        v < (st.c.update_a (0.5 * (st.minA + st.maxA))).v from hin)] at h
    rw [if_neg (by rw [hchk]; exact Bool.false_ne_true)] at h
    cases h
    exact ⟨rfl, rfl, rfl⟩
  · intro hout
    rw [if_neg (show ¬ ((st.c.update_a (0.5 * (st.minA + st.maxA))).v0 < v ∧
        v < (st.c.update_a (0.5 * (st.minA + st.maxA))).v) from hout)] at h
    cases h
    exact ⟨rfl, rfl, rfl⟩
  · intro hge
    rw [if_neg (show ¬ ((st.c.update_a (0.5 * (st.minA + st.maxA))).v0 < v ∧
        v < (st.c.update_a (0.5 * (st.minA + st.maxA))).v) from
        fun hc => absurd hc.2 (not_lt.mpr hge))] at h
    cases h
    exact ⟨rfl, rfl, rfl⟩

/-- C4 witness: on `stC4acc` the first trial has `a_trial = 1`, candidate
velocity exactly 3 inside `(1, 4)`, the feasibility check passes, and the
trial raises `a_lo` to 1 and remembers the velocity. -/
theorem C4_trial_direction_witness :
    (⟨⟨1, 4, 2, 1, 12, 0, some 2, some 4⟩, 1, 2, some 3⟩ : MState).minA
        = 0.5 * (stC4acc.minA + stC4acc.maxA) ∧
    (⟨⟨1, 4, 2, 1, 12, 0, some 2, some 4⟩, 1, 2, some 3⟩ : MState).maxA = stC4acc.maxA ∧
    (⟨⟨1, 4, 2, 1, 12, 0, some 2, some 4⟩, 1, 2, some 3⟩ : MState).minV = some 3 :=
  (C4_trial_direction_amended 1 stC4acc ⟨⟨1, 4, 2, 1, 12, 0, some 2, some 4⟩, 1, 2, some 3⟩ 3
      (by decide) (by decide)).1 (by decide) (by decide)

/-- Helper: a single motion-only trial's observable outcome (error kind, or
public constraint fields plus loop locals) depends only on the observable
part of the input state, not on the undo scratch fields. -/
theorem motionTrial_obs (beta : ℚ) (st₁ st₂ : MState) (h : MStateObs st₁ = MStateObs st₂) :
    (motionTrial beta st₁).map MStateObs = (motionTrial beta st₂).map MStateObs := by
  obtain ⟨⟨v01, v1, a1, j1, s1, t1, ap1, vp1⟩, mA1, xA1, mV1⟩ := st₁
  obtain ⟨⟨v02, v2, a2, j2, s2, t2, ap2, vp2⟩, mA2, xA2, mV2⟩ := st₂
  simp only [MStateObs, MotionConstraint.pub, Prod.mk.injEq] at h
  obtain ⟨⟨e1, e2, e3, e4, e5, e6⟩, eA, eX, eV⟩ := h
  subst e1; subst e2; subst e3; subst e4; subst e5; subst e6
  subst eA; subst eX; subst eV
  unfold motionTrial
  dsimp only [MotionConstraint.update_a, MotionConstraint.update_v,
    MotionConstraint.restore_a, MotionConstraint.restore_v]
  split
  · rfl
  · split
    · split
      · simp [Except.map, MStateObs, MotionConstraint.pub]
      · simp [Except.map, MStateObs, MotionConstraint.pub]
    · simp [Except.map, MStateObs, MotionConstraint.pub]
  · simp [Except.map, MStateObs, MotionConstraint.pub]

/-- Helper: the whole motion-only bisection loop is insensitive to the undo
scratch fields of its state. -/
theorem motionLoop_obs (beta : ℚ) :
    ∀ (n : ℕ) (st₁ st₂ : MState), MStateObs st₁ = MStateObs st₂ →
      (motionLoop beta n st₁).map MStateObs = (motionLoop beta n st₂).map MStateObs := by
  intro n
  induction n with
  | zero =>
    intro st₁ st₂ h
    simp [motionLoop, Except.map, h]
  | succ m ih =>
    intro st₁ st₂ h
    have ht := motionTrial_obs beta st₁ st₂ h
    unfold motionLoop
    cases h1 : motionTrial beta st₁ with
    | error e =>
      cases h2 : motionTrial beta st₂ with
      | error f =>
        rw [h1, h2] at ht
        simp only [Except.map] at ht
        cases ht
        simp [Except.bind]
      | ok s2 =>
        rw [h1, h2] at ht
        simp [Except.map] at ht
    | ok s1 =>
      cases h2 : motionTrial beta st₂ with
      | error f =>
        rw [h1, h2] at ht
        simp [Except.map] at ht
      | ok s2 =>
        rw [h1, h2] at ht
        simp only [Except.map, Except.ok.injEq] at ht
        rw [show (Except.ok s1 : Except MErr MState).bind (motionLoop beta m) =
          motionLoop beta m s1 from rfl]
        rw [show (Except.ok s2 : Except MErr MState).bind (motionLoop beta m) =
          motionLoop beta m s2 from rfl]
        exact ih s1 s2 ht

/-- Helper: one fast-path step of the time-and-motion solver is insensitive
to the undo scratch fields. -/
theorem solve_time_step_obs (beta : ℚ) (c₁ c₂ : MotionConstraint)
    (h : c₁.pub = c₂.pub) :
    (solve_time_step c₁ beta).map TObs = (solve_time_step c₂ beta).map TObs := by
  obtain ⟨v01, v1, a1, j1, s1, t1, ap1, vp1⟩ := c₁
  obtain ⟨v02, v2, a2, j2, s2, t2, ap2, vp2⟩ := c₂
  simp only [MotionConstraint.pub, Prod.mk.injEq] at h
  obtain ⟨e1, e2, e3, e4, e5, e6⟩ := h
  subst e1; subst e2; subst e3; subst e4; subst e5; subst e6
  unfold solve_time_step
  dsimp only [MotionConstraint.update_a, MotionConstraint.update_v,
    MotionConstraint.restore_a, MotionConstraint.restore_v,
    SCurveFull.check_min_displacement, SCurveFull.get_min_displacement]
  split
  · rfl
  · split
    · split
      · simp [Except.map, TObs, MotionConstraint.pub]
      · simp [Except.map, TObs, MotionConstraint.pub]
    · simp [Except.map, TObs, MotionConstraint.pub]
  · simp [Except.map, TObs, MotionConstraint.pub]

/-- Helper: the fast-path step never touches the acceleration undo slot. -/
theorem solve_time_step_scratch (c : MotionConstraint) (beta : ℚ) (b : Bool)
    (r : MotionConstraint) (h : solve_time_step c beta = .ok (b, r)) :
    r.aPrev = c.aPrev := by
  unfold solve_time_step at h
  dsimp only [] at h
  split at h
  · cases h
  · split at h
    · split at h
      · cases h
        rfl
      · cases h
        rfl
    · cases h
      rfl
  · cases h
    rfl

/-- Helper: one trial of the time-and-motion bisection is insensitive to the
undo scratch fields of its state. -/
theorem timeTrial_obs (beta : ℚ) (st₁ st₂ : MState) (h : MStateObs st₁ = MStateObs st₂) :
    (timeTrial beta st₁).map MStateObs = (timeTrial beta st₂).map MStateObs := by
  obtain ⟨⟨v01, v1, a1, j1, s1, t1, ap1, vp1⟩, mA1, xA1, mV1⟩ := st₁
  obtain ⟨⟨v02, v2, a2, j2, s2, t2, ap2, vp2⟩, mA2, xA2, mV2⟩ := st₂
  simp only [MStateObs, MotionConstraint.pub, Prod.mk.injEq] at h
  obtain ⟨⟨e1, e2, e3, e4, e5, e6⟩, eA, eX, eV⟩ := h
  subst e1; subst e2; subst e3; subst e4; subst e5; subst e6
  subst eA; subst eX; subst eV
  unfold timeTrial
  dsimp only [MotionConstraint.update_a]
  have hobs := solve_time_step_obs beta
    ⟨v01, v1, 0.5 * (mA1 + xA1), j1, s1, t1, some a1, vp1⟩
    ⟨v01, v1, 0.5 * (mA1 + xA1), j1, s1, t1, some a1, vp2⟩ rfl
  cases h1 : solve_time_step ⟨v01, v1, 0.5 * (mA1 + xA1), j1, s1, t1, some a1, vp1⟩ beta with
  | error e =>
    cases h2 : solve_time_step ⟨v01, v1, 0.5 * (mA1 + xA1), j1, s1, t1, some a1, vp2⟩ beta with
    | error f =>
      rw [h1, h2] at hobs
      simp only [Except.map] at hobs
      cases hobs
      rfl
    | ok p2 =>
      rw [h1, h2] at hobs
      simp [Except.map] at hobs
  | ok p1 =>
    cases h2 : solve_time_step ⟨v01, v1, 0.5 * (mA1 + xA1), j1, s1, t1, some a1, vp2⟩ beta with
    | error f =>
      rw [h1, h2] at hobs
      simp [Except.map] at hobs
    | ok p2 =>
      obtain ⟨b1, r1⟩ := p1
      obtain ⟨b2, r2⟩ := p2
      rw [h1, h2] at hobs
      simp only [Except.map, Except.ok.injEq, TObs, Prod.mk.injEq] at hobs
      obtain ⟨hb, hpub⟩ := hobs
      subst hb
      have ha1 := solve_time_step_scratch _ _ _ _ h1
      have ha2 := solve_time_step_scratch _ _ _ _ h2
      obtain ⟨w01, w1, wa1, wj1, ws1, wt1, wap1, wvp1⟩ := r1
      obtain ⟨w02, w2, wa2, wj2, ws2, wt2, wap2, wvp2⟩ := r2
      simp only [MotionConstraint.pub, Prod.mk.injEq] at hpub
      obtain ⟨f1, f2, f3, f4, f5, f6⟩ := hpub
      subst f1; subst f2; subst f3; subst f4; subst f5; subst f6
      simp only at ha1 ha2
      subst ha1; subst ha2
      dsimp only [MotionConstraint.restore_a]
      cases b1 <;>
        simp [Except.map, MStateObs, MotionConstraint.pub]

/-- Helper: the whole time-and-motion bisection loop is insensitive to the
undo scratch fields of its state. -/
theorem timeLoop_obs (beta : ℚ) :
    ∀ (n : ℕ) (st₁ st₂ : MState), MStateObs st₁ = MStateObs st₂ →
      (timeLoop beta n st₁).map MStateObs = (timeLoop beta n st₂).map MStateObs := by
  intro n
  induction n with
  | zero =>
    intro st₁ st₂ h
    simp [timeLoop, Except.map, h]
  | succ m ih =>
    intro st₁ st₂ h
    have ht := timeTrial_obs beta st₁ st₂ h
    unfold timeLoop
    cases h1 : timeTrial beta st₁ with
    | error e =>
      cases h2 : timeTrial beta st₂ with
      | error f =>
        rw [h1, h2] at ht
        simp only [Except.map] at ht
        cases ht
        simp [Except.bind]
      | ok s2 =>
        rw [h1, h2] at ht
        simp [Except.map] at ht
    | ok s1 =>
      cases h2 : timeTrial beta st₂ with
      | error f =>
        rw [h1, h2] at ht
        simp [Except.map] at ht
      | ok s2 =>
        rw [h1, h2] at ht
        simp only [Except.map, Except.ok.injEq] at ht
        rw [show (Except.ok s1 : Except MErr MState).bind (timeLoop beta m) =
          timeLoop beta m s1 from rfl]
        rw [show (Except.ok s2 : Except MErr MState).bind (timeLoop beta m) =
          timeLoop beta m s2 from rfl]
        exact ih s1 s2 ht

/-- Helper: the motion-only solver's observable outcome depends only on the
public request fields. -/
theorem solveMotionFull_obs (alpha : ℚ) (c₁ c₂ : MotionConstraint) (h : c₁.pub = c₂.pub) :
    (solveMotionFull c₁ alpha).map TObs = (solveMotionFull c₂ alpha).map TObs := by
  have tail : ∀ (cA cB : MotionConstraint), cA.pub = cB.pub →
      Except.map TObs
        (if SCurveFull.check_min_displacement cA (1 / alpha) = true then
          Except.ok (true, cA)
        else
          motionLoop (1 / alpha) (bisectIters ((cA.a - 0) / Curve.solve_error))
              ⟨cA, 0, cA.a, none⟩ >>= fun st =>
            if 0 < st.minA then
              (match st.minV with
              | some mv => Except.ok (true, (st.c.update_a st.minA).update_v mv)
              | none => Except.error (MErr.unbound "min_v"))
            else Except.ok (false, st.c)) =
      Except.map TObs
        (if SCurveFull.check_min_displacement cB (1 / alpha) = true then
          Except.ok (true, cB)
        else
          motionLoop (1 / alpha) (bisectIters ((cB.a - 0) / Curve.solve_error))
              ⟨cB, 0, cB.a, none⟩ >>= fun st =>
            if 0 < st.minA then
              (match st.minV with
              | some mv => Except.ok (true, (st.c.update_a st.minA).update_v mv)
              | none => Except.error (MErr.unbound "min_v"))
            else Except.ok (false, st.c)) := by
    intro cA cB hpub
    obtain ⟨x01, x1, xa1, xj1, xs1, xt1, xap1, xvp1⟩ := cA
    obtain ⟨x02, x2, xa2, xj2, xs2, xt2, xap2, xvp2⟩ := cB
    simp only [MotionConstraint.pub, Prod.mk.injEq] at hpub
    obtain ⟨g1, g2, g3, g4, g5, g6⟩ := hpub
    subst g1; subst g2; subst g3; subst g4; subst g5; subst g6
    have hcheck : SCurveFull.check_min_displacement
          ⟨x01, x1, xa1, xj1, xs1, xt1, xap1, xvp1⟩ (1 / alpha) =
        SCurveFull.check_min_displacement
          ⟨x01, x1, xa1, xj1, xs1, xt1, xap2, xvp2⟩ (1 / alpha) := rfl
    rw [hcheck]
    dsimp only []
    split_ifs
    · simp [Except.map, TObs, MotionConstraint.pub]
    · have hinit : MStateObs ⟨⟨x01, x1, xa1, xj1, xs1, xt1, xap1, xvp1⟩, 0, xa1, none⟩ =
          MStateObs ⟨⟨x01, x1, xa1, xj1, xs1, xt1, xap2, xvp2⟩, 0, xa1, none⟩ := by
        simp [MStateObs, MotionConstraint.pub]
      have hloop := motionLoop_obs (1 / alpha) (bisectIters ((xa1 - 0) / Curve.solve_error))
        ⟨⟨x01, x1, xa1, xj1, xs1, xt1, xap1, xvp1⟩, 0, xa1, none⟩
        ⟨⟨x01, x1, xa1, xj1, xs1, xt1, xap2, xvp2⟩, 0, xa1, none⟩ hinit
      cases hA : (motionLoop (1 / alpha) (bisectIters ((xa1 - 0) / Curve.solve_error))
          ⟨⟨x01, x1, xa1, xj1, xs1, xt1, xap1, xvp1⟩, 0, xa1, none⟩) with
      | error e =>
        cases hB : (motionLoop (1 / alpha) (bisectIters ((xa1 - 0) / Curve.solve_error))
            ⟨⟨x01, x1, xa1, xj1, xs1, xt1, xap2, xvp2⟩, 0, xa1, none⟩) with
        | error f =>
          rw [hA, hB] at hloop
          simp only [Except.map] at hloop
          cases hloop
          rfl
        | ok s2 =>
          rw [hA, hB] at hloop
          simp [Except.map] at hloop
      | ok stf1 =>
        cases hB : (motionLoop (1 / alpha) (bisectIters ((xa1 - 0) / Curve.solve_error))
            ⟨⟨x01, x1, xa1, xj1, xs1, xt1, xap2, xvp2⟩, 0, xa1, none⟩) with
        | error f =>
          rw [hA, hB] at hloop
          simp [Except.map] at hloop
        | ok stf2 =>
          rw [hA, hB] at hloop
          simp only [Except.map, Except.ok.injEq] at hloop
          obtain ⟨⟨w01, w1, wa1, wj1, ws1, wt1, wap1, wvp1⟩, nA1, nX1, nV1⟩ := stf1
          obtain ⟨⟨w02, w2, wa2, wj2, ws2, wt2, wap2, wvp2⟩, nA2, nX2, nV2⟩ := stf2
          simp only [MStateObs, MotionConstraint.pub, Prod.mk.injEq] at hloop
          obtain ⟨⟨f1, f2, f3, f4, f5, f6⟩, fA, fX, fV⟩ := hloop
          subst f1; subst f2; subst f3; subst f4; subst f5; subst f6
          subst fA; subst fX; subst fV
          rw [ok_bind, ok_bind]
          dsimp only [MotionConstraint.update_a, MotionConstraint.update_v]
          split
          · split
            · simp [Except.map, TObs, MotionConstraint.pub]
            · simp [Except.map]
          · simp [Except.map, TObs, MotionConstraint.pub]
  obtain ⟨v01, v1, a1, j1, s1, t1, ap1, vp1⟩ := c₁
  obtain ⟨v02, v2, a2, j2, s2, t2, ap2, vp2⟩ := c₂
  simp only [MotionConstraint.pub, Prod.mk.injEq] at h
  obtain ⟨e1, e2, e3, e4, e5, e6⟩ := h
  subst e1; subst e2; subst e3; subst e4; subst e5; subst e6
  unfold solveMotionFull
  dsimp only []
  split
  · split
    · rfl
    · rw [ok_bind, ok_bind]
      exact tail _ _ rfl
    · rfl
  · rw [ok_bind, ok_bind]
    exact tail _ _ rfl

/-- Helper: the time-and-motion solver's observable outcome depends only on
the public request fields. -/
theorem solveTimeMotionFull_obs (alpha : ℚ) (c₁ c₂ : MotionConstraint)
    (h : c₁.pub = c₂.pub) :
    (solveTimeMotionFull c₁ alpha).map TObs = (solveTimeMotionFull c₂ alpha).map TObs := by
  obtain ⟨v01, v1, a1, j1, s1, t1, ap1, vp1⟩ := c₁
  obtain ⟨v02, v2, a2, j2, s2, t2, ap2, vp2⟩ := c₂
  simp only [MotionConstraint.pub, Prod.mk.injEq] at h
  obtain ⟨e1, e2, e3, e4, e5, e6⟩ := h
  subst e1; subst e2; subst e3; subst e4; subst e5; subst e6
  unfold solveTimeMotionFull
  dsimp only []
  split
  · simp [Except.map, TObs, MotionConstraint.pub]
  · have hstep := solve_time_step_obs (1 / alpha)
      ⟨v01, v1, a1, j1, s1, t1, ap1, vp1⟩ ⟨v01, v1, a1, j1, s1, t1, ap2, vp2⟩
      (by simp [MotionConstraint.pub])
    cases hA : solve_time_step ⟨v01, v1, a1, j1, s1, t1, ap1, vp1⟩ (1 / alpha) with
    | error e =>
      cases hB : solve_time_step ⟨v01, v1, a1, j1, s1, t1, ap2, vp2⟩ (1 / alpha) with
      | error f =>
        rw [hA, hB] at hstep
        simp only [Except.map] at hstep
        cases hstep
        rfl
      | ok p2 =>
        rw [hA, hB] at hstep
        simp [Except.map] at hstep
    | ok p1 =>
      cases hB : solve_time_step ⟨v01, v1, a1, j1, s1, t1, ap2, vp2⟩ (1 / alpha) with
      | error f =>
        rw [hA, hB] at hstep
        simp [Except.map] at hstep
      | ok p2 =>
        rw [hA, hB] at hstep
        simp only [Except.map, Except.ok.injEq] at hstep
        obtain ⟨b1, ⟨d01, d1v, d1a, d1j, d1s, d1t, d1ap, d1vp⟩⟩ := p1
        obtain ⟨b2, ⟨d02, d2v, d2a, d2j, d2s, d2t, d2ap, d2vp⟩⟩ := p2
        simp only [TObs, MotionConstraint.pub, Prod.mk.injEq] at hstep
        obtain ⟨hb, h1, h2, h3, h4, h5, h6⟩ := hstep
        subst hb; subst h1; subst h2; subst h3; subst h4; subst h5; subst h6
        rw [ok_bind, ok_bind]
        dsimp only []
        split
        · simp [Except.map, TObs, MotionConstraint.pub]
        · have hinit :
              MStateObs ⟨⟨d01, d1v, d1a, d1j, d1s, d1t, d1ap, d1vp⟩, 0, d1a, none⟩ =
              MStateObs ⟨⟨d01, d1v, d1a, d1j, d1s, d1t, d2ap, d2vp⟩, 0, d1a, none⟩ := by
            simp [MStateObs, MotionConstraint.pub]
          have hloop := timeLoop_obs (1 / alpha)
            (bisectIters ((d1a - 0) / Curve.solve_error))
            ⟨⟨d01, d1v, d1a, d1j, d1s, d1t, d1ap, d1vp⟩, 0, d1a, none⟩
            ⟨⟨d01, d1v, d1a, d1j, d1s, d1t, d2ap, d2vp⟩, 0, d1a, none⟩ hinit
          cases hC : (timeLoop (1 / alpha) (bisectIters ((d1a - 0) / Curve.solve_error))
              ⟨⟨d01, d1v, d1a, d1j, d1s, d1t, d1ap, d1vp⟩, 0, d1a, none⟩) with
          | error e =>
            cases hD : (timeLoop (1 / alpha) (bisectIters ((d1a - 0) / Curve.solve_error))
                ⟨⟨d01, d1v, d1a, d1j, d1s, d1t, d2ap, d2vp⟩, 0, d1a, none⟩) with
            | error f =>
              rw [hC, hD] at hloop
              simp only [Except.map] at hloop
              cases hloop
              rfl
            | ok s2 =>
              rw [hC, hD] at hloop
              simp [Except.map] at hloop
          | ok stf1 =>
            cases hD : (timeLoop (1 / alpha) (bisectIters ((d1a - 0) / Curve.solve_error))
                ⟨⟨d01, d1v, d1a, d1j, d1s, d1t, d2ap, d2vp⟩, 0, d1a, none⟩) with
            | error f =>
              rw [hC, hD] at hloop
              simp [Except.map] at hloop
            | ok stf2 =>
              rw [hC, hD] at hloop
              simp only [Except.map, Except.ok.injEq] at hloop
              obtain ⟨⟨w01, w1, wa1, wj1, ws1, wt1, wap1, wvp1⟩, nA1, nX1, nV1⟩ := stf1
              obtain ⟨⟨w02, w2, wa2, wj2, ws2, wt2, wap2, wvp2⟩, nA2, nX2, nV2⟩ := stf2
              simp only [MStateObs, MotionConstraint.pub, Prod.mk.injEq] at hloop
              obtain ⟨⟨f1, f2, f3, f4, f5, f6⟩, fA, fX, fV⟩ := hloop
              subst f1; subst f2; subst f3; subst f4; subst f5; subst f6
              subst fA; subst fX; subst fV
              rw [ok_bind, ok_bind]
              dsimp only [MotionConstraint.update_a, MotionConstraint.update_v]
              split
              · split
                · simp [Except.map, TObs, MotionConstraint.pub]
                · simp [Except.map]
              · simp [Except.map, TObs, MotionConstraint.pub]

/-- C10: determinism of `solve` — the solver is a pure function of the public
request fields and of `alpha`: two invocations on requests that agree on
`(v0, v, a, j, s, t)` (regardless of the internal undo scratch slots, the only
other mutable state) produce identical success/failure outcomes and identical
continuous segments, discrete segments and delta-vectors. -/
theorem C10_determinism (alpha : ℚ) (c₁ c₂ : MotionConstraint) (h : c₁.pub = c₂.pub) :
    solveObs (scurveFullSolve c₁ alpha) = solveObs (scurveFullSolve c₂ alpha) := by
  have hm := solveMotionFull_obs alpha c₁ c₂ h
  unfold solveObs scurveFullSolve
  cases hA : solveMotionFull c₁ alpha with
  | error e =>
    cases hB : solveMotionFull c₂ alpha with
    | error f =>
      rw [hA, hB] at hm
      simp only [Except.map] at hm
      cases hm
      rfl
    | ok p2 =>
      rw [hA, hB] at hm
      simp [Except.map] at hm
  | ok p1 =>
    cases hB : solveMotionFull c₂ alpha with
    | error f =>
      rw [hA, hB] at hm
      simp [Except.map] at hm
    | ok p2 =>
      rw [hA, hB] at hm
      simp only [Except.map, Except.ok.injEq] at hm
      obtain ⟨b1, ⟨d01, d1v, d1a, d1j, d1s, d1t, d1ap, d1vp⟩⟩ := p1
      obtain ⟨b2, ⟨d02, d2v, d2a, d2j, d2s, d2t, d2ap, d2vp⟩⟩ := p2
      simp only [TObs, MotionConstraint.pub, Prod.mk.injEq] at hm
      obtain ⟨hb, h1, h2, h3, h4, h5, h6⟩ := hm
      subst hb; subst h1; subst h2; subst h3; subst h4; subst h5; subst h6
      rw [ok_bind, ok_bind]
      dsimp only []
      split
      · have ht := solveTimeMotionFull_obs alpha
          ⟨d01, d1v, d1a, d1j, d1s, d1t, d1ap, d1vp⟩
          ⟨d01, d1v, d1a, d1j, d1s, d1t, d2ap, d2vp⟩
          (by simp [MotionConstraint.pub])
        cases hC : solveTimeMotionFull ⟨d01, d1v, d1a, d1j, d1s, d1t, d1ap, d1vp⟩ alpha with
        | error e =>
          cases hD : solveTimeMotionFull ⟨d01, d1v, d1a, d1j, d1s, d1t, d2ap, d2vp⟩ alpha with
          | error f =>
            rw [hC, hD] at ht
            simp only [Except.map] at ht
            cases ht
            rfl
          | ok q2 =>
            rw [hC, hD] at ht
            simp [Except.map] at ht
        | ok q1 =>
          cases hD : solveTimeMotionFull ⟨d01, d1v, d1a, d1j, d1s, d1t, d2ap, d2vp⟩ alpha with
          | error f =>
            rw [hC, hD] at ht
            simp [Except.map] at ht
          | ok q2 =>
            rw [hC, hD] at ht
            simp only [Except.map, Except.ok.injEq] at ht
            obtain ⟨bb1, ⟨u01, u1v, u1a, u1j, u1s, u1t, u1ap, u1vp⟩⟩ := q1
            obtain ⟨bb2, ⟨u02, u2v, u2a, u2j, u2s, u2t, u2ap, u2vp⟩⟩ := q2
            simp only [TObs, MotionConstraint.pub, Prod.mk.injEq] at ht
            obtain ⟨kb, k1, k2, k3, k4, k5, k6⟩ := ht
            subst kb; subst k1; subst k2; subst k3; subst k4; subst k5; subst k6
            rw [ok_bind, ok_bind]
            dsimp only []
            split
            · split
              · rfl
              · simp [Except.map]
            · simp [Except.map]
      · rw [ok_bind, ok_bind]
        dsimp only []
        split
        · split
          · rfl
          · simp [Except.map]
        · simp [Except.map]

/-- Witness for C10 at a concrete input: two requests sharing the public
fields `(1, 2, 2, 9, 1/10, 0)` but with different undo scratch slots yield
the same observable solver outcome. -/
theorem C10_determinism_witness :
    reqC10.pub = reqC10'.pub ∧
      solveObs (scurveFullSolve reqC10 10) = solveObs (scurveFullSolve reqC10' 10) :=
  ⟨rfl, C10_determinism 10 reqC10 reqC10' rfl⟩
